import Mathlib

/-!
Verification development for the stock-intelligence acquisition-and-analysis
pipeline.  The JavaScript sources are embedded shallowly:

* JS numbers are modelled as exact rationals.
* Dates are modelled as naturals ordered like the source date strings
  (the chart series is date-ascending and date comparison in the source is
  numeric via Date construction).
* JS strings are modelled as lists of characters.
* Stateful functions (caching, session cookies, retrying requests) are
  modelled as pure functions over an explicit state, with the outcome of
  each network interaction supplied as an explicit argument.
* Fallible code returns Except.

Sources embedded here: src/backend/fetchers/technicalAnalysis.js,
src/backend/fetchers/nseFetcher.js, src/backend/fetchers/nseSearchFetcher.js,
and src/unnamed/part_009 (calculateSMA).  The indicator implementations come
from the external technicalindicators npm package, which is not part of the
repository; those definitions are modelled from the spec (section 4.6: SMA is
an arithmetic mean over a trailing window, EMA uses the standard smoothing
recurrence seeded by the first SMA window, RSI and MACD and Bollinger follow
their conventional definitions, and each output series is shorter than the
input by period minus one).
-/

set_option maxRecDepth 20000

/-! ## Indicator engine

Modelled from the spec: the technicalindicators library used by
detectTechnicalEvents (SMA.calculate, EMA.calculate, RSI.calculate,
MACD.calculate, BollingerBands.calculate).  The library itself is not in the
repository; the spec fixes the conventional definitions and the output-length
contract, which is all the event detector relies on.
-/

/-- Simple moving average: arithmetic mean over each trailing window of the
given period.  Output length is the input length minus (period - 1). -/
def smaList (period : Nat) (values : List ℚ) : List ℚ :=
  (List.range (values.length + 1 - period)).map (fun i =>
    ((values.drop i).take period).sum / (period : ℚ))

/-- One step of the EMA smoothing recurrence. -/
def emaStep (k : ℚ) : ℚ → List ℚ → List ℚ
  | _, [] => []
  | prev, p :: ps =>
    let e := (p - prev) * k + prev
    e :: emaStep k e ps

/-- Exponential moving average seeded by the SMA of the first window. -/
def emaList (period : Nat) (values : List ℚ) : List ℚ :=
  if values.length < period ∨ period = 0 then []
  else
    let seed := (values.take period).sum / (period : ℚ)
    seed :: emaStep (2 / ((period : ℚ) + 1)) seed (values.drop period)

/-- Successive differences of a price series. -/
def diffs : List ℚ → List ℚ
  | a :: b :: rest => (b - a) :: diffs (b :: rest)
  | _ => []

/-- One step of the Wilder smoothing used by RSI. -/
def wilderStep (period : ℚ) : ℚ → List ℚ → List ℚ
  | _, [] => []
  | prev, g :: gs =>
    let a := (prev * (period - 1) + g) / period
    a :: wilderStep period a gs

/-- Wilder smoothed averages seeded by the mean of the first window. -/
def wilderAvgs (period : Nat) (xs : List ℚ) : List ℚ :=
  if xs.length < period ∨ period = 0 then []
  else
    let seed := (xs.take period).sum / (period : ℚ)
    seed :: wilderStep (period : ℚ) seed (xs.drop period)

/-- Relative strength index over the given period. -/
def rsiList (period : Nat) (values : List ℚ) : List ℚ :=
  let ch := diffs values
  let gains := ch.map (fun c => if 0 < c then c else 0)
  let losses := ch.map (fun c => if c < 0 then -c else 0)
  (wilderAvgs period gains).zipWith
    (fun g l => if l = 0 then 100 else 100 - 100 / (1 + g / l))
    (wilderAvgs period losses)

/-- A MACD output entry; the signal field is absent until enough MACD line
values exist to seed the signal EMA, mirroring the undefined fields the
source guards against. -/
structure MACDEntry where
  MACD : Option ℚ
  signal : Option ℚ
deriving DecidableEq

/-- MACD(12, 26, 9): fast EMA minus slow EMA, with a 9-period EMA signal. -/
def macdList (values : List ℚ) : List MACDEntry :=
  let fast := emaList 12 values
  let slow := emaList 26 values
  let line := (fast.drop (26 - 12)).zipWith (fun f s => f - s) slow
  let sig := emaList 9 line
  (List.range line.length).map (fun i =>
    ⟨line.get? i,
     if line.length - sig.length ≤ i then sig.get? (i - (line.length - sig.length))
     else none⟩)

/-- A Bollinger band entry. -/
structure BBEntry where
  middle : ℚ
  upper : ℚ
  lower : ℚ
deriving DecidableEq

/-- Bollinger bands: the window mean plus/minus a multiple of the population
standard deviation of the window.  The square root on rationals is not
exactly representable, so the band computation is parameterised by the
square-root function used; every theorem about the detector below is proved
for an arbitrary such function. -/
def bbList (sqrtFn : ℚ → ℚ) (period : Nat) (mult : ℚ) (values : List ℚ) : List BBEntry :=
  (List.range (values.length + 1 - period)).map (fun i =>
    let w := (values.drop i).take period
    let m := w.sum / (period : ℚ)
    let v := (w.map (fun x => (x - m) ^ 2)).sum / (period : ℚ)
    let sd := sqrtFn v
    ⟨m, m + mult * sd, m - mult * sd⟩)

/-! ## Event detector

Embedded from src/backend/fetchers/technicalAnalysis.js
(detectTechnicalEvents).  The display-only name and description fields of an
event are omitted; date, type, signal and price are kept. -/

/-- A technical event as pushed by detectTechnicalEvents. -/
structure TAEvent where
  date : Nat
  type : String
  signal : String
  price : ℚ
deriving DecidableEq

/-- The conditional push used throughout the detection loops. -/
def pushIf (c : Prop) [Decidable c] (e : TAEvent) : List TAEvent :=
  if c then [e] else []

/-- The for-loops of the detector, each running i from 1 while i < bound,
collecting the events pushed by the body in order. -/
def forEvents (k : Nat) (body : Nat → List TAEvent) : List TAEvent :=
  ((List.range' 1 k).map body).flatten

/-- Golden and death cross detection (50 SMA vs 200 SMA), lines 51-87 of
technicalAnalysis.js, including the offset subtraction exactly as written:
idx200 = i - (sma50Offset - sma200Offset). -/
def crossEvents (dates : List Nat) (prices : List ℚ) : List TAEvent :=
  let sma50 := smaList 50 prices
  let sma200 := smaList 200 prices
  let off50 : Int := (prices.length : Int) - (sma50.length : Int)
  let off200 : Int := (prices.length : Int) - (sma200.length : Int)
  forEvents (min sma50.length sma200.length - 1) (fun i =>
    let idx200 : Int := (i : Int) - (off50 - off200)
    if idx200 < 1 ∨ ((sma200.length : Int) ≤ idx200) then []
    else
      let dateIndex : Nat := (off200 + idx200).toNat
      let prev50 := sma50.getD (i - 1) 0
      let curr50 := sma50.getD i 0
      let prev200 := sma200.getD (idx200 - 1).toNat 0
      let curr200 := sma200.getD idx200.toNat 0
      pushIf (prev50 ≤ prev200 ∧ curr200 < curr50)
        ⟨dates.getD dateIndex 0, "golden_cross", "bullish", prices.getD dateIndex 0⟩ ++
      pushIf (prev200 ≤ prev50 ∧ curr50 < curr200)
        ⟨dates.getD dateIndex 0, "death_cross", "bearish", prices.getD dateIndex 0⟩)

/-- JS falsiness of a possibly absent number: undefined or zero. -/
def falsyQ : Option ℚ → Prop
  | none => True
  | some v => v = 0

instance : DecidablePred falsyQ := fun o =>
  match o with
  | none => isTrue trivial
  | some v => inferInstanceAs (Decidable (v = 0))

/-- MACD crossover detection, lines 89-120. -/
def macdCrossEvents (dates : List Nat) (prices : List ℚ) : List TAEvent :=
  let m := macdList prices
  let off := prices.length - m.length
  forEvents (m.length - 1) (fun i =>
    let prev := m.getD (i - 1) ⟨none, none⟩
    let curr := m.getD i ⟨none, none⟩
    let dateIndex := off + i
    if falsyQ prev.MACD ∨ falsyQ prev.signal ∨ falsyQ curr.MACD ∨ falsyQ curr.signal then []
    else
      pushIf (prev.MACD.getD 0 ≤ prev.signal.getD 0 ∧ curr.signal.getD 0 < curr.MACD.getD 0)
        ⟨dates.getD dateIndex 0, "macd_bullish", "bullish", prices.getD dateIndex 0⟩ ++
      pushIf (prev.signal.getD 0 ≤ prev.MACD.getD 0 ∧ curr.MACD.getD 0 < curr.signal.getD 0)
        ⟨dates.getD dateIndex 0, "macd_bearish", "bearish", prices.getD dateIndex 0⟩)

/-- RSI zone exit detection, lines 122-151. -/
def rsiEvents (dates : List Nat) (prices : List ℚ) : List TAEvent :=
  let r := rsiList 14 prices
  let off := prices.length - r.length
  forEvents (r.length - 1) (fun i =>
    let prev := r.getD (i - 1) 0
    let curr := r.getD i 0
    let dateIndex := off + i
    pushIf (70 ≤ prev ∧ curr < 70)
      ⟨dates.getD dateIndex 0, "rsi_overbought_exit", "bearish", prices.getD dateIndex 0⟩ ++
    pushIf (prev ≤ 30 ∧ 30 < curr)
      ⟨dates.getD dateIndex 0, "rsi_oversold_exit", "bullish", prices.getD dateIndex 0⟩)

/-- Bollinger band breakout detection, lines 153-184. -/
def bbEvents (sqrtFn : ℚ → ℚ) (dates : List Nat) (prices : List ℚ) : List TAEvent :=
  let bb := bbList sqrtFn 20 2 prices
  let off := prices.length - bb.length
  forEvents (bb.length - 1) (fun i =>
    let dateIndex := off + i
    let price := prices.getD dateIndex 0
    let prevPrice := prices.getD (dateIndex - 1) 0
    let b := bb.getD i ⟨0, 0, 0⟩
    let pb := bb.getD (i - 1) ⟨0, 0, 0⟩
    pushIf (prevPrice ≤ pb.upper ∧ b.upper < price)
      ⟨dates.getD dateIndex 0, "bb_upper_breakout", "bullish", price⟩ ++
    pushIf (pb.lower ≤ prevPrice ∧ price < b.lower)
      ⟨dates.getD dateIndex 0, "bb_lower_breakout", "bearish", price⟩)

/-- 20 SMA crossover detection, lines 186-217. -/
def sma20Events (dates : List Nat) (prices : List ℚ) : List TAEvent :=
  let sma20 := smaList 20 prices
  let off := prices.length - sma20.length
  forEvents (sma20.length - 1) (fun i =>
    let dateIndex := off + i
    let price := prices.getD dateIndex 0
    let prevPrice := prices.getD (dateIndex - 1) 0
    let s := sma20.getD i 0
    let ps := sma20.getD (i - 1) 0
    pushIf (prevPrice ≤ ps ∧ s < price)
      ⟨dates.getD dateIndex 0, "sma20_bullish", "bullish", price⟩ ++
    pushIf (ps ≤ prevPrice ∧ price < s)
      ⟨dates.getD dateIndex 0, "sma20_bearish", "bearish", price⟩)

/-- Date ordering on events; the source sorts with the comparator
subtracting the parsed dates, which is an ascending stable sort. -/
def dle (a b : TAEvent) : Prop := a.date ≤ b.date

instance : DecidableRel dle := fun a b => inferInstanceAs (Decidable (a.date ≤ b.date))

instance : IsTrans TAEvent dle := ⟨fun _ _ _ h1 h2 => Nat.le_trans h1 h2⟩

instance : IsTotal TAEvent dle := ⟨fun a b => Nat.le_total a.date b.date⟩

/-- The stable ascending sort by date used by the detector. -/
def sortEvents (l : List TAEvent) : List TAEvent := List.insertionSort dle l

/-- The major event types, line 223. -/
def majorEventTypes : List String :=
  ["golden_cross", "death_cross", "rsi_overbought_exit", "rsi_oversold_exit"]

/-- Whether an event is major. -/
def isMajorE (e : TAEvent) : Bool := majorEventTypes.contains e.type

/-- Final assembly, lines 219-230: sort by date, keep all major events, keep
only the last 20 minor events of the sorted order, and re-sort. -/
def finalizeEvents (events : List TAEvent) : List TAEvent :=
  let sorted := sortEvents events
  let major := sorted.filter isMajorE
  let minor := sorted.filter (fun e => !isMajorE e)
  let limitedMinor := minor.drop (minor.length - 20)
  sortEvents (major ++ limitedMinor)

/-- detectTechnicalEvents, embedded from technicalAnalysis.js.  The input is
the list of (date, price) pairs; price parsing is already done.  The square
root used inside the Bollinger computation is a parameter (see bbList). -/
def detectTechnicalEvents (sqrtFn : ℚ → ℚ) (priceData : List (Nat × ℚ)) : List TAEvent :=
  if priceData.length < 200 then []
  else
    let dates := priceData.map Prod.fst
    let prices := priceData.map Prod.snd
    finalizeEvents
      (crossEvents dates prices ++ macdCrossEvents dates prices ++
       rsiEvents dates prices ++ bbEvents sqrtFn dates prices ++
       sma20Events dates prices)

/-! ## Date-aligned crossings

Modelled from the spec: the golden and death cross definition of sections
4.7 and 8 under correct date alignment, where the SMA50 and SMA200 values
compared at a source-date index j are the windows ending at j (the SMA value
at list index j - 49 respectively j - 199).  These definitions state what
the spec claims the detector computes; they are compared with the embedded
detector above. -/

/-- Source dates at which SMA50 crosses from at most SMA200 to strictly
above it, under correct date alignment. -/
def alignedGoldenCrossDates (dates : List Nat) (prices : List ℚ) : List Nat :=
  ((List.range' 200 (prices.length - 200)).filter (fun j =>
    decide ((smaList 50 prices).getD (j - 50) 0 ≤ (smaList 200 prices).getD (j - 200) 0 ∧
      (smaList 200 prices).getD (j - 199) 0 < (smaList 50 prices).getD (j - 49) 0))).map
    (fun j => dates.getD j 0)

/-- Source dates at which SMA50 crosses from at least SMA200 to strictly
below it, under correct date alignment. -/
def alignedDeathCrossDates (dates : List Nat) (prices : List ℚ) : List Nat :=
  ((List.range' 200 (prices.length - 200)).filter (fun j =>
    decide ((smaList 200 prices).getD (j - 200) 0 ≤ (smaList 50 prices).getD (j - 50) 0 ∧
      (smaList 50 prices).getD (j - 49) 0 < (smaList 200 prices).getD (j - 199) 0))).map
    (fun j => dates.getD j 0)

/-! ## calculateSMA from src/unnamed/part_009

Unlike the library SMA above, this standalone helper keeps one null output
per input entry that lacks a full trailing window. -/

/-- calculateSMA, embedded from src/unnamed/part_009 lines 7-37.  A null in
the source output is none here.  The period argument is a natural; the
source guard period <= 0 becomes period = 0. -/
def calculateSMA (prices : List ℚ) (period : Nat) : List (Option ℚ) :=
  if prices.length = 0 then []
  else if period = 0 ∨ prices.length < period then prices.map (fun _ => none)
  else
    (List.range (period - 1)).map (fun _ => (none : Option ℚ)) ++
    (List.range' (period - 1) (prices.length - (period - 1))).map (fun i =>
      some (((prices.drop (i + 1 - period)).take period).sum / (period : ℚ)))

/-! ## Character and string helpers

JS strings are modelled as lists of characters.  Character classes follow
the ASCII ranges of the regular expressions in the source; case mapping
follows the ASCII behaviour of toUpperCase and toLowerCase. -/

/-- JS whitespace class, modelled by the core whitespace predicate. -/
def isWsC (c : Char) : Bool := c.isWhitespace

/-- ASCII uppercase mapping of one character. -/
def toUpperC (c : Char) : Char :=
  if 97 ≤ c.toNat ∧ c.toNat ≤ 122 then Char.ofNat (c.toNat - 32) else c

/-- ASCII lowercase mapping of one character. -/
def toLowerC (c : Char) : Char :=
  if 65 ≤ c.toNat ∧ c.toNat ≤ 90 then Char.ofNat (c.toNat + 32) else c

/-- toUpperCase. -/
def jsUpper (s : List Char) : List Char := s.map toUpperC

/-- toLowerCase. -/
def jsLower (s : List Char) : List Char := s.map toLowerC

/-- trim: strip whitespace from both ends. -/
def jsTrim (s : List Char) : List Char :=
  ((s.dropWhile isWsC).reverse.dropWhile isWsC).reverse

/-- The character class a-z, 0-9 or hyphen kept by the slug-cleaning
replacement. -/
def isSlugChar (c : Char) : Bool :=
  (97 ≤ c.toNat ∧ c.toNat ≤ 122) ∨ (48 ≤ c.toNat ∧ c.toNat ≤ 57) ∨ c.toNat = 45

/-- Replacement of every maximal whitespace run by a single hyphen: inside a
run the hyphen is emitted at the last character of the run. -/
def hyphenateWs : List Char → List Char
  | [] => []
  | [c] => if isWsC c then ['-'] else [c]
  | c :: d :: cs =>
    if isWsC c then
      (if isWsC d then hyphenateWs (d :: cs) else '-' :: hyphenateWs (d :: cs))
    else c :: hyphenateWs (d :: cs)

/-- Removal of every character outside a-z, 0-9, hyphen. -/
def stripNonSlug (s : List Char) : List Char := s.filter isSlugChar

/-- JS line terminators, which dot does not match. -/
def isLineTerm (c : Char) : Bool :=
  c.toNat = 10 ∨ c.toNat = 13 ∨ c.toNat = 0x2028 ∨ c.toNat = 0x2029

/-- The corporate suffix alternatives of the suffix-stripping pattern. -/
def corpSuffixes : List (List Char) :=
  ["LTD".toList, "LIMITED".toList, "INC".toList, "INCORPORATED".toList]

/-- Whether the suffix pattern (whitespace run, then a corporate suffix
case-insensitively, then non-terminator characters up to the end) matches at
the start of the remaining characters. -/
def suffixMatchHere (s : List Char) : Bool :=
  !(s.takeWhile isWsC).isEmpty &&
  (corpSuffixes.any (fun w =>
    let rest := s.dropWhile isWsC
    (jsUpper (rest.take w.length) == w) && (rest.drop w.length).all (fun c => !isLineTerm c)))

/-- Replacement of the leftmost suffix-pattern match (which extends to the
end of the string) by nothing: everything from the first matching position
on is removed. -/
def stripCorpSuffix : List Char → List Char
  | [] => []
  | c :: cs => if suffixMatchHere (c :: cs) then [] else c :: stripCorpSuffix cs

/-- JS truthiness of a possibly absent string: present and non-empty. -/
def otruthy : Option (List Char) → Bool
  | none => false
  | some s => !s.isEmpty

/-- The value of a possibly absent string, defaulting to the empty string. -/
def ovalue (o : Option (List Char)) : List Char := o.getD []

/-- Chained JS or-defaults over string fields: the first truthy value. -/
def firstTruthy : List (Option (List Char)) → List Char
  | [] => []
  | o :: os => if otruthy o then ovalue o else firstTruthy os

/-! ## Transport: makeRequest

Embedded from src/backend/fetchers/nseFetcher.js lines 20-93 (the search
fetcher contains a character-identical copy).  The network is modelled as a
function giving the outcome of each successive attempt; the function returns
how many attempts were made, the delays slept between them, and the final
settled result.  The retries argument counts the retries remaining, exactly
as in the source, whose callers use the default of 3. -/

/-- The outcome of one HTTP attempt. -/
inductive AttemptResult
  | response (code : Nat) (body : List Char)
  | netError (msg : List Char)
  | timeout
deriving DecidableEq

deriving instance DecidableEq for Except

/-- The observable result of makeRequest. -/
structure ReqOutcome where
  attempts : Nat
  delays : List Nat
  result : Except (List Char) (List Char)
deriving DecidableEq

/-- The rejection message of a failed attempt. -/
def statusMsg (code : Nat) : List Char :=
  ("Request failed with status ".toList) ++ (toString code).toList

/-- The message with which a given attempt outcome would be rejected. -/
def rejectionMsg : AttemptResult → List Char
  | .response code _ => statusMsg code
  | .netError m => m
  | .timeout => "Request timeout".toList

/-- makeRequest: resolve 2xx bodies; on 401/403 (after clearing the session
cookie), 5xx, network error or timeout, retry after a 1000 ms delay while
retries remain; reject otherwise.  A 4xx other than 401/403 rejects at
once. -/
def makeRequest (env : Nat → AttemptResult) : Nat → Nat → ReqOutcome
  | idx, 0 =>
    match env idx with
    | .response code body =>
      if 200 ≤ code ∧ code < 300 then ⟨1, [], .ok body⟩
      else ⟨1, [], .error (statusMsg code)⟩
    | .netError msg => ⟨1, [], .error msg⟩
    | .timeout => ⟨1, [], .error ("Request timeout".toList)⟩
  | idx, r + 1 =>
    match env idx with
    | .response code body =>
      if 200 ≤ code ∧ code < 300 then ⟨1, [], .ok body⟩
      else if code = 401 ∨ code = 403 then
        let o := makeRequest env (idx + 1) r
        ⟨o.attempts + 1, 1000 :: o.delays, o.result⟩
      else if 500 ≤ code then
        let o := makeRequest env (idx + 1) r
        ⟨o.attempts + 1, 1000 :: o.delays, o.result⟩
      else ⟨1, [], .error (statusMsg code)⟩
    | .netError _ =>
      let o := makeRequest env (idx + 1) r
      ⟨o.attempts + 1, 1000 :: o.delays, o.result⟩
    | .timeout =>
      let o := makeRequest env (idx + 1) r
      ⟨o.attempts + 1, 1000 :: o.delays, o.result⟩

/-! ## Session cookies

Embedded from src/backend/fetchers/nseFetcher.js lines 99-146 and
src/backend/fetchers/nseSearchFetcher.js lines 99-141.  The module-level
sessionCookie and cookieExpiry variables form the explicit state; the
outcome of the landing-page request is an argument.  The acquisitions field
counts network acquisition calls made by the invocation. -/

/-- Cookie TTL: 30 minutes in milliseconds. -/
def COOKIE_TTL : Nat := 30 * 60 * 1000

/-- The module-level session cookie state. -/
structure CookieSt where
  cookie : Option (List Char)
  expiry : Option Nat
deriving DecidableEq

/-- Outcome of the landing-page acquisition request: a rejection, or a
response whose set-cookie header is absent or holds a list of cookies. -/
inductive AcqOutcome
  | fail (msg : List Char)
  | ok (setCookie : Option (List (List Char)))
deriving DecidableEq

/-- Result of one getSessionCookie call. -/
structure CookieResult where
  ret : List Char
  st : CookieSt
  acquisitions : Nat
deriving DecidableEq

/-- Concatenation of the name=value parts of the set-cookie values. -/
def joinCookies (lst : List (List Char)) : List Char :=
  List.intercalate ("; ".toList) (lst.map (fun c => c.takeWhile (fun ch => ch ≠ ';')))

/-- Truthiness of the cached cookie and expiry followed by the freshness
check, as in the source condition sessionCookie and cookieExpiry and now
less than cookieExpiry. -/
def cookieFresh (st : CookieSt) (now : Nat) : Bool :=
  otruthy st.cookie &&
  (match st.expiry with
   | none => false
   | some e => (e ≠ 0 : Bool) && decide (now < e))

/-- The shared acquisition tail: on failure or a missing set-cookie header
return the empty string without caching; otherwise cache the joined cookie
with a fresh expiry. -/
def acquireCookie (st : CookieSt) (now : Nat) (acq : AcqOutcome) : CookieResult :=
  match acq with
  | .fail _ => ⟨[], st, 1⟩
  | .ok none => ⟨[], st, 1⟩
  | .ok (some lst) =>
    let cs := joinCookies lst
    ⟨cs, ⟨some cs, some (now + COOKIE_TTL)⟩, 1⟩

/-- getSessionCookie of the price fetcher: the environment override is
consulted first and short-circuits everything. -/
def getSessionCookieNse (envCookie : Option (List Char)) (st : CookieSt) (now : Nat)
    (acq : AcqOutcome) : CookieResult :=
  if otruthy envCookie then ⟨ovalue envCookie, st, 0⟩
  else if cookieFresh st now then ⟨ovalue st.cookie, st, 0⟩
  else acquireCookie st now acq

/-- getSessionCookie of the search fetcher: the environment is available but
the function never consults it; there is no override check in the source. -/
def getSessionCookieSearch (_envCookie : Option (List Char)) (st : CookieSt) (now : Nat)
    (acq : AcqOutcome) : CookieResult :=
  if cookieFresh st now then ⟨ovalue st.cookie, st, 0⟩
  else acquireCookie st now acq

/-! ## Per-operation caches with stale fallback

Embedded from getNSEPrice (lines 247-538), getChartData (lines 546-609) and
searchNSEStocks (lines 148-243).  Each cache entry stores a value and its
write timestamp; the whole try-block of a fetch (cookie, slug resolution,
request, extraction) is abstracted as one Except-valued outcome.  The models
return the value produced for the caller; the cache write on the success
path does not affect the returned value and is omitted. -/

/-- One cache entry. -/
structure CacheEntry (α : Type) where
  data : α
  timestamp : Nat
deriving DecidableEq

/-- Quote cache TTL: 1 minute. -/
def CACHE_TTL : Nat := 60 * 1000

/-- Chart cache TTL: 1 hour. -/
def CHART_CACHE_TTL : Nat := 60 * 60 * 1000

/-- Search cache TTL: 5 minutes. -/
def SEARCH_CACHE_TTL : Nat := 5 * 60 * 1000

/-- getNSEPrice on a symbol with a given cache entry: a fresh entry
short-circuits; otherwise the fetch outcome is consulted, and on failure any
existing entry, however old, is returned; only with no entry at all does the
error propagate (wrapped as in the source). -/
def getNSEPrice {α : Type} (sym : List Char) (now : Nat) (cached : Option (CacheEntry α))
    (fetch : Except (List Char) α) : Except (List Char) α :=
  match cached with
  | some c =>
    if now - c.timestamp < CACHE_TTL then .ok c.data
    else
      match fetch with
      | .ok v => .ok v
      | .error _ => .ok c.data
  | none =>
    match fetch with
    | .ok v => .ok v
    | .error e => .error (("Failed to fetch price for ".toList) ++ sym ++ (": ".toList) ++ e)

/-- getChartData on a symbol with a given cache entry: a fresh entry
short-circuits; otherwise the fetch outcome is returned unchanged, the catch
block only logging and rethrowing, with no stale lookup. -/
def getChartData {α : Type} (now : Nat) (cached : Option (CacheEntry α))
    (fetch : Except (List Char) α) : Except (List Char) α :=
  match cached with
  | some c =>
    if now - c.timestamp < CHART_CACHE_TTL then .ok c.data
    else fetch
  | none => fetch

/-! ## Symbol resolution: findCompanySlug

Embedded from src/backend/fetchers/nseFetcher.js lines 153-240.  The search
request is abstracted as an outcome: a rejection (which the try block turns
into the catch-block fallback) or a normalized candidate list (the source
accepts a bare array or the results or data array fields; a payload matching
none of those shapes gives the empty list). -/

/-- A search candidate with the fields the source reads.  Absent fields are
none. -/
structure Candidate where
  url : Option (List Char) := none
  slug : Option (List Char) := none
  name : Option (List Char) := none
  symbol : Option (List Char) := none
  code : Option (List Char) := none
  ticker : Option (List Char) := none
  company : Option (List Char) := none
  companyName : Option (List Char) := none
  exchange : Option (List Char) := none
  stockExchange : Option (List Char) := none
deriving DecidableEq

/-- The candidate with every field absent. -/
def emptyCandidate : Candidate := {}

/-- The outcome of the search call inside findCompanySlug. -/
inductive SearchOutcome
  | fail (msg : List Char)
  | ok (results : List Candidate)
deriving DecidableEq

/-- Substring containment (the JS includes test). -/
def isSubstring : List Char → List Char → Bool
  | needle, [] => needle.isEmpty
  | needle, c :: cs => needle.isPrefixOf (c :: cs) || isSubstring needle cs

/-- The match predicate of lines 190-200: exact symbol or name match, or
substring containment either way, the last after stripping a corporate
suffix from the candidate name. -/
def candMatches (ns : List Char) (r : Candidate) : Bool :=
  let rSymbol := jsUpper (firstTruthy [r.symbol, r.code, r.ticker, r.name])
  let rName := jsUpper (ovalue r.name)
  (rSymbol == ns) || (rName == ns) ||
  isSubstring ns rSymbol || isSubstring ns rName ||
  isSubstring rSymbol ns || isSubstring (jsTrim (stripCorpSuffix rName)) ns

/-- The literal marker of the url-extraction pattern. -/
def companyMarker : List Char := "/company/".toList

/-- Attempted url-pattern match at the current position: the marker, then a
non-empty run of non-slash characters captured, then a slash. -/
def urlSlugAt (s : List Char) : Option (List Char) :=
  if companyMarker.isPrefixOf s then
    let rest := s.drop companyMarker.length
    let seg := rest.takeWhile (fun c => c ≠ '/')
    if !seg.isEmpty && !(rest.drop seg.length).isEmpty then some seg else none
  else none

/-- Leftmost url-pattern match over the whole url. -/
def urlSlugSearch : List Char → Option (List Char)
  | [] => none
  | c :: cs =>
    match urlSlugAt (c :: cs) with
    | some seg => some seg
    | none => urlSlugSearch cs

/-- Conversion of a company name to a slug: lowercase, whitespace runs to
hyphens, other characters outside a-z, 0-9, hyphen removed (line 221). -/
def nameToSlug (s : List Char) : List Char := stripNonSlug (hyphenateWs (jsLower s))

/-- The fallback slug of lines 228-232: corporate suffix stripped first,
then the same slug conversion. -/
def fallbackSlug (ns : List Char) : List Char :=
  stripNonSlug (hyphenateWs (jsLower (stripCorpSuffix ns)))

/-- The catch-block fallback of line 238: lowercase with whitespace runs to
hyphens, nothing stripped. -/
def catchSlug (ns : List Char) : List Char := hyphenateWs (jsLower ns)

/-- Slug extraction from the winning candidate, lines 206-224: url pattern
first, then the slug field, then the name converted to a slug, else fall
through to the fallback slug. -/
def slugFromMatch (m : Candidate) (ns : List Char) : List Char :=
  match (if otruthy m.url then urlSlugSearch (ovalue m.url) else none) with
  | some seg => seg
  | none =>
    if otruthy m.slug then ovalue m.slug
    else if otruthy m.name then nameToSlug (ovalue m.name)
    else fallbackSlug ns

/-- The try-block body once the search outcome is known: with candidates,
pick the first match or the first candidate and extract a slug from it; with
no candidates use the fallback slug. -/
def findCompanySlugTry (ns : List Char) (results : List Candidate) : List Char :=
  if results.isEmpty then fallbackSlug ns
  else
    let m := (results.find? (candMatches ns)).getD (results.headD emptyCandidate)
    slugFromMatch m ns

/-- findCompanySlug: uppercase and trim the symbol; a search rejection lands
in the catch block, which swallows the error and returns the catch fallback
slug, so the function always returns a string. -/
def findCompanySlug (symbol : List Char) (outcome : SearchOutcome) : List Char :=
  let ns := jsTrim (jsUpper symbol)
  match outcome with
  | .fail _ => catchSlug ns
  | .ok results => findCompanySlugTry ns results

/-! ## Search: searchNSEStocks

Embedded from src/backend/fetchers/nseSearchFetcher.js lines 148-243.  The
response data is either a recognized candidate array shape, a raw non-JSON
text body (which the transport resolves as-is after a parse failure), or
some other JSON value without the recognized array fields. -/

/-- A normalized search suggestion. -/
structure Suggestion where
  symbol : List Char
  name : List Char
  exchange : List Char
deriving DecidableEq

/-- The response body shapes distinguished by searchNSEStocks. -/
inductive SearchResp
  | arr (items : List Candidate)
  | objResults (items : List Candidate)
  | objData (items : List Candidate)
  | objCompanies (items : List Candidate)
  | raw (text : List Char)
  | otherJson
deriving DecidableEq

/-- extractStockInfo, lines 193-208. -/
def extractStockInfo (item : Candidate) : Suggestion :=
  let symbol := firstTruthy [item.symbol, item.code, item.ticker, item.name, item.slug]
  let name := firstTruthy [item.company, item.companyName, item.name, item.slug]
  let exchange :=
    let e := firstTruthy [item.exchange, item.stockExchange]
    if e.isEmpty then "NSE".toList else e
  let cleanSymbol := (jsUpper symbol).filter (fun c => c ≠ '-')
  ⟨if !cleanSymbol.isEmpty then cleanSymbol else jsUpper symbol, name, exchange⟩

/-- The suggestions extracted from a response body. -/
def respSuggestions : SearchResp → List Suggestion
  | .arr its | .objResults its | .objData its | .objCompanies its =>
    (its.map extractStockInfo).filter (fun s => !s.symbol.isEmpty)
  | .raw _ => []
  | .otherJson => []

/-- searchNSEStocks: short queries return the empty list without a fetch; a
fresh cache entry short-circuits; a fetch rejection is caught and answered
with the stale entry if any, else the empty list; a successful response is
normalized and capped at 10.  The cache write of the success path does not
affect the returned value and is omitted. -/
def searchNSEStocks (query : List Char) (cached : Option (CacheEntry (List Suggestion)))
    (now : Nat) (fetch : Except (List Char) SearchResp) : List Suggestion :=
  let nq := jsTrim query
  if nq.isEmpty ∨ nq.length < 2 then []
  else
    let fresh : Bool := match cached with
      | some c => decide (now - c.timestamp < SEARCH_CACHE_TTL)
      | none => false
    if fresh then (cached.map (fun c => c.data)).getD []
    else
      match fetch with
      | .error _ => (cached.map (fun c => c.data)).getD []
      | .ok resp => (respSuggestions resp).take 10

/-! ## Quote normalization: the changePercent pipeline

Embedded from src/backend/fetchers/nseFetcher.js lines 424-434 (the branch
chain deriving the raw percent change) and line 512 (the rounding applied in
the normalized record).  A present field carries the value of parseFloat of
the raw field with the or-zero default already applied; an absent field is
none.  The change branch is guarded by the truthiness of the raw field, so
presence models that truthiness. -/

/-- The fields of the extracted data object feeding the changePercent
chain. -/
structure RawQuoteData where
  changePercent : Option ℚ := none
  pChange : Option ℚ := none
  change : Option ℚ := none
deriving DecidableEq

/-- The branch chain of lines 424-434. -/
def deriveChangePercent (d : RawQuoteData) (lastPrice previousClose : ℚ) : ℚ :=
  if d.changePercent.isSome then d.changePercent.getD 0
  else if d.pChange.isSome then d.pChange.getD 0
  else if d.change.isSome ∧ previousClose ≠ 0 then d.change.getD 0 / previousClose * 100
  else if previousClose ≠ 0 ∧ lastPrice ≠ 0 ∧ previousClose ≠ lastPrice then
    (lastPrice - previousClose) / previousClose * 100
  else 0

/-- parseFloat of toFixed(2): the nearest multiple of one hundredth, ties
resolved towards the larger value, as specified for toFixed. -/
def toFixed2 (q : ℚ) : ℚ := ((⌊q * 100 + 1 / 2⌋ : ℤ) : ℚ) / 100

/-- The normalized quote record of lines 509-516 (the fields involved in the
numeric pipeline). -/
structure QuoteModel where
  price : ℚ
  changePercent : ℚ
  volume : ℤ
deriving DecidableEq

/-- The normalized record construction of lines 509-516. -/
def mkNormalizedQuote (d : RawQuoteData) (lastPrice previousClose : ℚ) (volume : ℤ) :
    QuoteModel :=
  ⟨lastPrice, toFixed2 (deriveChangePercent d lastPrice previousClose), volume⟩

/-! ## Concrete inputs used by the theorems -/

/-- A 201-day price series: 200 days at 100 followed by one day at 200.
Under correct date alignment SMA50 crosses SMA200 exactly once, at index
200 (price dates equal their indices). -/
def priceData0 : List (Nat × ℚ) :=
  ((List.range 200).map (fun i => (i, (100 : ℚ)))) ++ [(200, 200)]

/-- The dates of priceData0. -/
def dates0 : List Nat := priceData0.map Prod.fst

/-- The prices of priceData0. -/
def prices0 : List ℚ := priceData0.map Prod.snd

/-- A synthetic minor event (a 20 SMA crossover) for the noise-cap test. -/
def synthMinor (i : Nat) : TAEvent := ⟨i, "sma20_bullish", "bullish", 0⟩

/-- A synthetic major event (a golden cross) for the noise-cap test. -/
def synthMajor (i : Nat) : TAEvent := ⟨i, "golden_cross", "bullish", 0⟩

/-- Five major events dated 200-204 plus fifty minor events dated 0-49. -/
def synth55 : List TAEvent :=
  (List.range' 200 5).map synthMajor ++ (List.range' 0 50).map synthMinor

/-- The expected noise-capped output: the twenty most recent minor events
then the five major events, ascending by date. -/
def expected25 : List TAEvent :=
  (List.range' 30 20).map synthMinor ++ (List.range' 200 5).map synthMajor

/-! ## Theorems: transport retry policy (claim C3) -/

/-- A network environment where every attempt fails with the same error. -/
def constNetErr : Nat → AttemptResult := fun _ => .netError ("ECONNRESET".toList)

/-- C3 counterexample: with the default of three retries and persistent
network errors, makeRequest performs four attempts in total, not at most
three, sleeping 1000 ms before each of the three retries and surfacing the
last error. -/
theorem makeRequest_four_attempts :
    (makeRequest constNetErr 0 3).attempts = 4 ∧
    (makeRequest constNetErr 0 3).delays = [1000, 1000, 1000] ∧
    (makeRequest constNetErr 0 3).result = Except.error ("ECONNRESET".toList) := by
  decide

/-- C3 (amended): makeRequest with r retries remaining performs between one
and r + 1 attempts (so at most four attempts in total with the default of
three retries, not three); every retry is preceded by a fixed 1000 ms delay;
and an error result is exactly the rejection of the last attempt made. -/
theorem makeRequest_retry_policy :
    ∀ (retries : Nat) (env : Nat → AttemptResult) (idx : Nat),
    1 ≤ (makeRequest env idx retries).attempts ∧
    (makeRequest env idx retries).attempts ≤ retries + 1 ∧
    (∀ d ∈ (makeRequest env idx retries).delays, d = 1000) ∧
    (∀ e, (makeRequest env idx retries).result = Except.error e →
      e = rejectionMsg (env (idx + ((makeRequest env idx retries).attempts - 1)))) := by
  intro retries
  induction retries with
  | zero =>
    intro env idx
    cases henv : env idx with
    | response code body =>
      by_cases h2 : 200 ≤ code ∧ code < 300 <;>
        simp [makeRequest, henv, h2, rejectionMsg]
    | netError msg => simp [makeRequest, henv, rejectionMsg]
    | timeout => simp [makeRequest, henv, rejectionMsg]
  | succ r ih =>
    intro env idx
    obtain ⟨ih1, ih2, ih3, ih4⟩ := ih env (idx + 1)
    have hidx : idx + 1 + ((makeRequest env (idx + 1) r).attempts - 1) =
        idx + ((makeRequest env (idx + 1) r).attempts + 1 - 1) := by omega
    cases henv : env idx with
    | response code body =>
      by_cases h2 : 200 ≤ code ∧ code < 300
      · simp [makeRequest, henv, h2]
      · by_cases h4 : code = 401 ∨ code = 403
        · simp only [makeRequest, henv, if_neg h2, if_pos h4]
          refine ⟨by omega, by omega, ?_, ?_⟩
          · intro d hd
            rcases List.mem_cons.1 hd with h | h
            · exact h
            · exact ih3 d h
          · intro e he
            rw [ih4 e he, hidx]
        · by_cases h5 : 500 ≤ code
          · simp only [makeRequest, henv, if_neg h2, if_neg h4, if_pos h5]
            refine ⟨by omega, by omega, ?_, ?_⟩
            · intro d hd
              rcases List.mem_cons.1 hd with h | h
              · exact h
              · exact ih3 d h
            · intro e he
              rw [ih4 e he, hidx]
          · simp [makeRequest, henv, h2, h4, h5, rejectionMsg]
    | netError msg =>
      simp only [makeRequest, henv]
      refine ⟨by omega, by omega, ?_, ?_⟩
      · intro d hd
        rcases List.mem_cons.1 hd with h | h
        · exact h
        · exact ih3 d h
      · intro e he
        rw [ih4 e he, hidx]
    | timeout =>
      simp only [makeRequest, henv]
      refine ⟨by omega, by omega, ?_, ?_⟩
      · intro d hd
        rcases List.mem_cons.1 hd with h | h
        · exact h
        · exact ih3 d h
      · intro e he
        rw [ih4 e he, hidx]

/-- Witness for makeRequest_retry_policy at a concrete failing environment:
the attempt bound and the last-error equation are realized. -/
theorem makeRequest_retry_policy_witness :
    (makeRequest constNetErr 0 3).attempts ≤ 3 + 1 ∧
    (1000 ∈ (makeRequest constNetErr 0 3).delays → (1000 : Nat) = 1000) ∧
    ("ECONNRESET".toList) =
      rejectionMsg (constNetErr (0 + ((makeRequest constNetErr 0 3).attempts - 1))) :=
  ⟨(makeRequest_retry_policy 3 constNetErr 0).2.1,
   fun h => (makeRequest_retry_policy 3 constNetErr 0).2.2.1 1000 h,
   (makeRequest_retry_policy 3 constNetErr 0).2.2.2 ("ECONNRESET".toList) (by decide)⟩

/-! ## Theorems: stale-fallback policy (claim C2) -/

/-- C2 counterexample: a failing chart fetch with a stale cache entry
present propagates the error instead of returning the stale value. -/
theorem getChartData_ignores_stale :
    @getChartData Nat CHART_CACHE_TTL (some ⟨42, 0⟩) (Except.error ("boom".toList)) =
      Except.error ("boom".toList) := by
  decide

/-- C2 (amended): on a fetch failure getNSEPrice returns the cached quote
whenever any entry exists, fresh or stale, and propagates the wrapped error
only when no entry exists; getChartData propagates a fetch error unchanged
whenever its entry is not fresh, even when a stale entry exists. -/
theorem stale_fallback_policy :
    (∀ (α : Type) (sym : List Char) (now : Nat) (c : CacheEntry α) (e : List Char),
      getNSEPrice sym now (some c) (Except.error e) = Except.ok c.data) ∧
    (∀ (α : Type) (sym : List Char) (now : Nat) (e : List Char),
      getNSEPrice sym now (none : Option (CacheEntry α)) (Except.error e) =
        Except.error (("Failed to fetch price for ".toList) ++ sym ++ (": ".toList) ++ e)) ∧
    (∀ (α : Type) (now : Nat) (c : CacheEntry α) (e : List Char),
      CHART_CACHE_TTL ≤ now - c.timestamp →
      getChartData now (some c) (Except.error e) = Except.error e) ∧
    (∀ (α : Type) (now : Nat) (e : List Char),
      getChartData now (none : Option (CacheEntry α)) (Except.error e) = Except.error e) := by
  refine ⟨?_, ?_, ?_, ?_⟩
  · intro α sym now c e
    simp only [getNSEPrice]
    split <;> rfl
  · intro α sym now e
    rfl
  · intro α now c e h
    simp only [getChartData]
    rw [if_neg (by omega)]
  · intro α now e
    rfl

/-- Witness for stale_fallback_policy: the chart branch realized on a
concrete stale entry. -/
theorem stale_fallback_policy_witness :
    CHART_CACHE_TTL ≤ 3600000 - (0 : Nat) ∧
    @getChartData Nat 3600000 (some ⟨7, 0⟩) (Except.error ("x".toList)) =
      Except.error ("x".toList) :=
  ⟨by decide, stale_fallback_policy.2.2.1 Nat 3600000 ⟨7, 0⟩ ("x".toList) (by decide)⟩

/-! ## Theorems: session-cookie override (claim C7) -/

/-- C7 counterexample: with the environment override set and no cached
cookie, the search fetcher still performs a network acquisition and returns
the acquired cookie, not the override. -/
theorem searchCookie_ignores_override :
    (getSessionCookieSearch (some ("OVERRIDE".toList)) ⟨none, none⟩ 0
      (AcqOutcome.ok (some ["sessionid=x; Path=/".toList]))).acquisitions = 1 ∧
    (getSessionCookieSearch (some ("OVERRIDE".toList)) ⟨none, none⟩ 0
      (AcqOutcome.ok (some ["sessionid=x; Path=/".toList]))).ret ≠ "OVERRIDE".toList := by
  decide

/-- C7 (amended): in the price fetcher a truthy environment override is
returned as-is with no network acquisition and unchanged state; the search
fetcher never consults the environment, behaving identically under any
override value. -/
theorem sessionCookie_override_policy :
    (∀ (env : Option (List Char)) (st : CookieSt) (now : Nat) (acq : AcqOutcome),
      otruthy env = true →
      getSessionCookieNse env st now acq = ⟨ovalue env, st, 0⟩) ∧
    (∀ (env env' : Option (List Char)) (st : CookieSt) (now : Nat) (acq : AcqOutcome),
      getSessionCookieSearch env st now acq = getSessionCookieSearch env' st now acq) := by
  constructor
  · intro env st now acq h
    simp [getSessionCookieNse, h]
  · intro env env' st now acq
    rfl

/-- Witness for sessionCookie_override_policy at a concrete override. -/
theorem sessionCookie_override_policy_witness :
    getSessionCookieNse (some ("X".toList)) ⟨none, none⟩ 0 (AcqOutcome.fail []) =
      ⟨ovalue (some ("X".toList)), ⟨none, none⟩, 0⟩ :=
  sessionCookie_override_policy.1 (some ("X".toList)) ⟨none, none⟩ 0 (AcqOutcome.fail [])
    (by decide)

/-! ## Theorems: single acquisition per TTL window (claim C8) -/

/-- C8: starting without a valid cookie and with no override, a first
getSessionCookie call whose acquisition yields a non-empty joined cookie
performs exactly one acquisition, and a second call before the expiry (with
no intervening invalidation, the second call starting from the state the
first one left) performs none and returns the same cookie: one acquisition
across the pair. -/
theorem getSessionCookieNse_single_acquisition
    (env : Option (List Char)) (st0 : CookieSt) (t1 t2 : Nat) (lst : List (List Char))
    (acq2 : AcqOutcome)
    (henv : otruthy env = false)
    (hmiss : cookieFresh st0 t1 = false)
    (hne : joinCookies lst ≠ [])
    (ht : t2 < t1 + COOKIE_TTL) :
    (getSessionCookieNse env st0 t1 (AcqOutcome.ok (some lst))).acquisitions = 1 ∧
    (getSessionCookieNse env
        (getSessionCookieNse env st0 t1 (AcqOutcome.ok (some lst))).st t2 acq2).acquisitions = 0 ∧
    (getSessionCookieNse env
        (getSessionCookieNse env st0 t1 (AcqOutcome.ok (some lst))).st t2 acq2).ret =
      (getSessionCookieNse env st0 t1 (AcqOutcome.ok (some lst))).ret ∧
    (getSessionCookieNse env st0 t1 (AcqOutcome.ok (some lst))).acquisitions +
      (getSessionCookieNse env
        (getSessionCookieNse env st0 t1 (AcqOutcome.ok (some lst))).st t2 acq2).acquisitions
      = 1 := by
  have h1 : getSessionCookieNse env st0 t1 (AcqOutcome.ok (some lst)) =
      ⟨joinCookies lst, ⟨some (joinCookies lst), some (t1 + COOKIE_TTL)⟩, 1⟩ := by
    simp [getSessionCookieNse, henv, hmiss, acquireCookie]
  have hne' : (joinCookies lst).isEmpty = false := by
    cases hjl : joinCookies lst with
    | nil => exact absurd hjl hne
    | cons a l => rfl
  have h0 : t1 + COOKIE_TTL ≠ 0 := by simp [COOKIE_TTL]
  have hfresh : cookieFresh ⟨some (joinCookies lst), some (t1 + COOKIE_TTL)⟩ t2 = true := by
    simp [cookieFresh, otruthy, hne', h0, ht]
  rw [h1]
  have h2 : getSessionCookieNse env ⟨some (joinCookies lst), some (t1 + COOKIE_TTL)⟩ t2 acq2 =
      ⟨joinCookies lst, ⟨some (joinCookies lst), some (t1 + COOKIE_TTL)⟩, 0⟩ := by
    simp [getSessionCookieNse, henv, hfresh, ovalue]
  rw [h2]
  exact ⟨rfl, rfl, rfl, rfl⟩

/-- Witness for getSessionCookieNse_single_acquisition on a concrete cold
start. -/
theorem getSessionCookieNse_single_acquisition_witness :
    (getSessionCookieNse none ⟨none, none⟩ 0 (AcqOutcome.ok (some ["a=b; Path=/".toList]))).acquisitions = 1 ∧
    (getSessionCookieNse none
        (getSessionCookieNse none ⟨none, none⟩ 0 (AcqOutcome.ok (some ["a=b; Path=/".toList]))).st 5
        (AcqOutcome.fail [])).acquisitions = 0 ∧
    (getSessionCookieNse none
        (getSessionCookieNse none ⟨none, none⟩ 0 (AcqOutcome.ok (some ["a=b; Path=/".toList]))).st 5
        (AcqOutcome.fail [])).ret =
      (getSessionCookieNse none ⟨none, none⟩ 0 (AcqOutcome.ok (some ["a=b; Path=/".toList]))).ret ∧
    (getSessionCookieNse none ⟨none, none⟩ 0 (AcqOutcome.ok (some ["a=b; Path=/".toList]))).acquisitions +
      (getSessionCookieNse none
        (getSessionCookieNse none ⟨none, none⟩ 0 (AcqOutcome.ok (some ["a=b; Path=/".toList]))).st 5
        (AcqOutcome.fail [])).acquisitions = 1 :=
  getSessionCookieNse_single_acquisition none ⟨none, none⟩ 0 5 ["a=b; Path=/".toList]
    (AcqOutcome.fail []) (by decide) (by decide) (by decide) (by decide)

/-! ## Theorems: search failure handling (claim C9) -/

/-- A concrete stale suggestion for the counterexample. -/
def sugg0 : Suggestion := ⟨"TCS".toList, "Tata Consultancy Services".toList, "NSE".toList⟩

/-- C9 counterexample: a successfully fetched but non-JSON body, the
parse-failure case that the transport resolves as raw text, yields the empty
list even though a stale cache entry exists; the stale list is not
returned. -/
theorem searchNSEStocks_raw_drops_stale :
    searchNSEStocks ("tcs".toList) (some ⟨[sugg0], 0⟩) SEARCH_CACHE_TTL
      (Except.ok (SearchResp.raw ("<html>".toList))) = [] ∧
    (some (⟨[sugg0], 0⟩ : CacheEntry (List Suggestion))).map (fun c => c.data) ≠ some [] := by
  decide

/-- C9 (amended): searchNSEStocks is total; when the fetch itself is
rejected the result is the stale cached list when one exists and the empty
list otherwise, with short queries answered empty without a fetch; but a
fetched body without a recognized candidate array, such as raw non-JSON
text, produces the empty list even when a stale entry exists. -/
theorem searchNSEStocks_failure_policy :
    (∀ (query : List Char) (cached : Option (CacheEntry (List Suggestion))) (now : Nat)
        (e : List Char),
      searchNSEStocks query cached now (Except.error e) =
        if (jsTrim query).isEmpty ∨ (jsTrim query).length < 2 then []
        else (cached.map (fun c => c.data)).getD []) ∧
    (∀ (query : List Char) (cached : Option (CacheEntry (List Suggestion))) (now : Nat)
        (t : List Char),
      (∀ c, cached = some c → SEARCH_CACHE_TTL ≤ now - c.timestamp) →
      searchNSEStocks query cached now (Except.ok (SearchResp.raw t)) = []) := by
  constructor
  · intro query cached now e
    by_cases hq : (jsTrim query).isEmpty = true ∨ (jsTrim query).length < 2
    · simp only [searchNSEStocks, if_pos hq]
    · simp only [searchNSEStocks, if_neg hq]
      exact ite_self _
  · intro query cached now t hstale
    by_cases hq : (jsTrim query).isEmpty = true ∨ (jsTrim query).length < 2
    · simp only [searchNSEStocks, if_pos hq]
    · simp only [searchNSEStocks, if_neg hq]
      cases cached with
      | none => simp [respSuggestions]
      | some c =>
        have hns := hstale c rfl
        have hf : ¬(now - c.timestamp < SEARCH_CACHE_TTL) := by omega
        simp [hf, respSuggestions]

/-- Witness for searchNSEStocks_failure_policy on a concrete stale cache and
a concrete rejection. -/
theorem searchNSEStocks_failure_policy_witness :
    searchNSEStocks ("tcs".toList) (some ⟨[sugg0], 0⟩) SEARCH_CACHE_TTL
        (Except.error ("ECONNRESET".toList)) =
      (if (jsTrim ("tcs".toList)).isEmpty ∨ (jsTrim ("tcs".toList)).length < 2 then []
       else ((some (⟨[sugg0], 0⟩ : CacheEntry (List Suggestion))).map (fun c => c.data)).getD []) ∧
    searchNSEStocks ("tcs".toList) (some ⟨[sugg0], 0⟩) SEARCH_CACHE_TTL
        (Except.ok (SearchResp.raw ("<html>".toList))) = [] :=
  ⟨searchNSEStocks_failure_policy.1 ("tcs".toList) (some ⟨[sugg0], 0⟩) SEARCH_CACHE_TTL
      ("ECONNRESET".toList),
   searchNSEStocks_failure_policy.2 ("tcs".toList) (some ⟨[sugg0], 0⟩) SEARCH_CACHE_TTL
      ("<html>".toList) (by intro c hc; cases hc; decide)⟩

/-! ## Theorems: changePercent rounding (claim C10) -/

/-- C10: the changePercent field of every normalized quote equals the
derived percent change rounded by toFixed(2), whatever branch supplied the
raw value: it is an integer number of hundredths within half a hundredth of
the derived value. -/
theorem changePercent_rounded (d : RawQuoteData) (lastPrice previousClose : ℚ) (volume : ℤ) :
    (mkNormalizedQuote d lastPrice previousClose volume).changePercent =
      toFixed2 (deriveChangePercent d lastPrice previousClose) ∧
    ∃ k : ℤ,
      (mkNormalizedQuote d lastPrice previousClose volume).changePercent = (k : ℚ) / 100 ∧
      |(mkNormalizedQuote d lastPrice previousClose volume).changePercent -
        deriveChangePercent d lastPrice previousClose| ≤ 1 / 200 := by
  refine ⟨rfl, ⟨⌊deriveChangePercent d lastPrice previousClose * 100 + 1 / 2⌋, rfl, ?_⟩⟩
  set x := deriveChangePercent d lastPrice previousClose with hx
  have h1 : ((⌊x * 100 + 1 / 2⌋ : ℤ) : ℚ) ≤ x * 100 + 1 / 2 := Int.floor_le _
  have h2 : x * 100 + 1 / 2 < (⌊x * 100 + 1 / 2⌋ : ℤ) + 1 := Int.lt_floor_add_one _
  have hcp : (mkNormalizedQuote d lastPrice previousClose volume).changePercent =
      ((⌊x * 100 + 1 / 2⌋ : ℤ) : ℚ) / 100 := rfl
  rw [hcp, abs_le]
  constructor <;> linarith

/-! ## Theorems: calculateSMA output shape (claim C5) -/

/-- C5 counterexample: for the three-point series and period two the output
of calculateSMA has length three, not three minus (two minus one). -/
theorem calculateSMA_length_cex :
    (calculateSMA [1, 2, 3] 2).length ≠ [(1 : ℚ), 2, 3].length - (2 - 1) := by
  decide

/-- C5 (amended): for period at least one and input length at least the
period, calculateSMA returns one output entry per input entry, keeping the
leading nulls: the output length equals the input length, the first
period - 1 entries are null, and the remaining length - (period - 1)
entries are present values; the library moving-average series used by the
detector, by contrast, have length equal to the input length minus
(period - 1). -/
theorem calculateSMA_shape (prices : List ℚ) (period : Nat)
    (h1 : 1 ≤ period) (h2 : period ≤ prices.length) :
    (calculateSMA prices period).length = prices.length ∧
    (calculateSMA prices period).take (period - 1) = List.replicate (period - 1) none ∧
    ((calculateSMA prices period).drop (period - 1)).length = prices.length - (period - 1) ∧
    (∀ x ∈ (calculateSMA prices period).drop (period - 1), x.isSome = true) ∧
    (∀ (p : Nat) (vals : List ℚ), 1 ≤ p → p ≤ vals.length →
      (smaList p vals).length = vals.length - (p - 1)) := by
  have hne : ¬(prices.length = 0) := by omega
  have hguard : ¬(period = 0 ∨ prices.length < period) := by omega
  have hcalc : calculateSMA prices period =
      (List.range (period - 1)).map (fun _ => (none : Option ℚ)) ++
      (List.range' (period - 1) (prices.length - (period - 1))).map (fun i =>
        some (((prices.drop (i + 1 - period)).take period).sum / (period : ℚ))) := by
    simp only [calculateSMA, if_neg hne, if_neg hguard]
  have hlen1 : ((List.range (period - 1)).map (fun _ => (none : Option ℚ))).length =
      period - 1 := by simp
  refine ⟨?_, ?_, ?_, ?_, ?_⟩
  · rw [hcalc]
    simp
    omega
  · rw [hcalc, List.take_left' hlen1, List.map_const']
    simp
  · rw [hcalc, List.drop_left' hlen1]
    simp
  · rw [hcalc, List.drop_left' hlen1]
    intro x hxmem
    obtain ⟨i, -, hi⟩ := List.mem_map.1 hxmem
    rw [← hi]
    rfl
  · intro p vals hp1 hp2
    simp only [smaList, List.length_map, List.length_range]
    omega

/-- Witness for calculateSMA_shape on the three-point series with period
two. -/
theorem calculateSMA_shape_witness :
    (calculateSMA [1, 2, 3] 2).length = [(1 : ℚ), 2, 3].length :=
  (calculateSMA_shape [1, 2, 3] 2 (by decide) (by decide)).1

/-! ## Helper lemmas about the final event assembly -/

theorem sortEvents_perm (l : List TAEvent) : List.Perm (sortEvents l) l :=
  List.perm_insertionSort dle l

theorem sortEvents_sorted (l : List TAEvent) : List.Sorted dle (sortEvents l) :=
  List.sorted_insertionSort dle l

/-- Counting a predicate that only holds on major events is unaffected by
the final assembly: sorting is a permutation, all major events are kept and
the dropped events are minor. -/
theorem countP_finalizeEvents (p : TAEvent → Bool)
    (hp : ∀ e, p e = true → isMajorE e = true) (l : List TAEvent) :
    (finalizeEvents l).countP p = l.countP p := by
  simp only [finalizeEvents]
  rw [(sortEvents_perm _).countP_eq, List.countP_append]
  have hmaj : ((sortEvents l).filter isMajorE).countP p = (sortEvents l).countP p := by
    rw [List.countP_eq_length_filter, List.filter_filter, List.countP_eq_length_filter]
    congr 1
    apply List.filter_congr
    intro a _
    cases hpa : p a with
    | true => simp [hp a hpa]
    | false => simp
  have hmin : (((sortEvents l).filter (fun e => !isMajorE e)).drop
      (((sortEvents l).filter (fun e => !isMajorE e)).length - 20)).countP p = 0 := by
    rw [List.countP_eq_zero]
    intro a ha hpa
    have ha3 := List.mem_filter.1 (List.mem_of_mem_drop ha)
    rw [hp a hpa] at ha3
    simp at ha3
  rw [hmaj, hmin, (sortEvents_perm l).countP_eq, Nat.add_zero]

/-! ## Theorems: noise cap (claim C4) -/

/-- C4: the final assembly of detectTechnicalEvents returns events sorted
ascending by date; its major events are a permutation of all major events
collected; its minor events number exactly min 20 of those collected (the
most recent by date, being the tail of the date-sorted minor list); and on
a synthetic input of 5 major plus 50 minor events the output is exactly the
5 major events plus the 20 most recent minor events, ascending by date. -/
theorem finalizeEvents_noise_cap :
    (∀ l : List TAEvent, List.Sorted dle (finalizeEvents l)) ∧
    (∀ l : List TAEvent,
      List.Perm ((finalizeEvents l).filter isMajorE) (l.filter isMajorE)) ∧
    (∀ l : List TAEvent,
      ((finalizeEvents l).filter (fun e => !isMajorE e)).length =
        min 20 (l.filter (fun e => !isMajorE e)).length) ∧
    finalizeEvents synth55 = expected25 := by
  refine ⟨?_, ?_, ?_, by decide⟩
  · intro l
    exact sortEvents_sorted _
  · intro l
    simp only [finalizeEvents]
    refine ((sortEvents_perm _).filter _).trans ?_
    rw [List.filter_append]
    have hA : (((sortEvents l).filter isMajorE).filter isMajorE) =
        (sortEvents l).filter isMajorE := by
      rw [List.filter_filter]
      apply List.filter_congr
      intro a _
      cases isMajorE a <;> rfl
    have hB : ((((sortEvents l).filter (fun e => !isMajorE e)).drop
        (((sortEvents l).filter (fun e => !isMajorE e)).length - 20)).filter isMajorE) = [] := by
      rw [List.filter_eq_nil_iff]
      intro a ha
      have ha3 := List.mem_filter.1 (List.mem_of_mem_drop ha)
      simp at ha3
      simp [ha3.2]
    rw [hA, hB, List.append_nil]
    exact (sortEvents_perm l).filter _
  · intro l
    simp only [finalizeEvents]
    rw [((sortEvents_perm _).filter _).length_eq, List.filter_append, List.length_append]
    have hA : (((sortEvents l).filter isMajorE).filter (fun e => !isMajorE e)) = [] := by
      rw [List.filter_eq_nil_iff]
      intro a ha
      have ha3 := List.mem_filter.1 ha
      simp [ha3.2]
    have hB : ((((sortEvents l).filter (fun e => !isMajorE e)).drop
        (((sortEvents l).filter (fun e => !isMajorE e)).length - 20)).filter
          (fun e => !isMajorE e)) =
        (((sortEvents l).filter (fun e => !isMajorE e)).drop
          (((sortEvents l).filter (fun e => !isMajorE e)).length - 20)) := by
      rw [List.filter_eq_self]
      intro a ha
      exact (List.mem_filter.1 (List.mem_of_mem_drop ha)).2
    rw [hA, hB]
    have hC : ((sortEvents l).filter (fun e => !isMajorE e)).length =
        (l.filter (fun e => !isMajorE e)).length :=
      ((sortEvents_perm l).filter _).length_eq
    rw [List.length_drop, hC]
    simp only [List.length_nil]
    omega

/-! ## Character facts for the slug proofs -/

theorem wsC_toNat (c : Char) (h : isWsC c = true) :
    c.toNat = 32 ∨ c.toNat = 9 ∨ c.toNat = 13 ∨ c.toNat = 10 := by
  simp only [isWsC, Char.isWhitespace] at h
  simp at h
  rcases h with ((h | h) | h) | h <;> subst h <;> decide

theorem isWsC_eq_false_of_toNat (c : Char)
    (h : c.toNat ≠ 32 ∧ c.toNat ≠ 9 ∧ c.toNat ≠ 13 ∧ c.toNat ≠ 10) :
    isWsC c = false := by
  cases hws : isWsC c with
  | false => rfl
  | true =>
    exfalso
    have := wsC_toNat c hws
    omega

theorem isWsC_eq_false_of_alnum (c : Char)
    (h : (65 ≤ c.toNat ∧ c.toNat ≤ 90) ∨ (48 ≤ c.toNat ∧ c.toNat ≤ 57)) :
    isWsC c = false :=
  isWsC_eq_false_of_toNat c (by omega)

theorem toLowerC_alnum (c : Char)
    (h : (65 ≤ c.toNat ∧ c.toNat ≤ 90) ∨ (48 ≤ c.toNat ∧ c.toNat ≤ 57)) :
    (97 ≤ (toLowerC c).toNat ∧ (toLowerC c).toNat ≤ 122) ∨
      (48 ≤ (toLowerC c).toNat ∧ (toLowerC c).toNat ≤ 57) := by
  rcases h with h | h
  · left
    simp only [toLowerC, if_pos h]
    obtain ⟨h1, h2⟩ := h
    set t := c.toNat with ht
    interval_cases t <;> decide
  · right
    simp only [toLowerC, if_neg (show ¬(65 ≤ c.toNat ∧ c.toNat ≤ 90) by omega)]
    exact h

theorem isSlugChar_toLowerC (c : Char)
    (h : (65 ≤ c.toNat ∧ c.toNat ≤ 90) ∨ (48 ≤ c.toNat ∧ c.toNat ≤ 57)) :
    isSlugChar (toLowerC c) = true := by
  rcases toLowerC_alnum c h with h2 | h2 <;> simp [isSlugChar] <;> omega

theorem isWsC_toLowerC (c : Char)
    (h : (65 ≤ c.toNat ∧ c.toNat ≤ 90) ∨ (48 ≤ c.toNat ∧ c.toNat ≤ 57)) :
    isWsC (toLowerC c) = false := by
  apply isWsC_eq_false_of_toNat
  have := toLowerC_alnum c h
  omega

theorem hyphenateWs_of_no_ws : ∀ (l : List Char), (∀ c ∈ l, isWsC c = false) →
    hyphenateWs l = l
  | [], _ => rfl
  | [c], h => by
    have hc : isWsC c = false := h c (List.mem_cons_self c [])
    rw [hyphenateWs, if_neg (by simp [hc])]
  | c :: d :: cs, h => by
    have hc : isWsC c = false := h c (List.mem_cons_self c (d :: cs))
    rw [hyphenateWs, if_neg (by simp [hc]),
      hyphenateWs_of_no_ws (d :: cs) (fun e he => h e (List.mem_cons_of_mem c he))]

theorem suffixMatchHere_eq_false (c : Char) (cs : List Char) (hc : isWsC c = false) :
    suffixMatchHere (c :: cs) = false := by
  simp [suffixMatchHere, List.takeWhile, hc]

theorem stripCorpSuffix_of_no_ws : ∀ (l : List Char), (∀ c ∈ l, isWsC c = false) →
    stripCorpSuffix l = l := by
  intro l
  induction l with
  | nil => intro _; rfl
  | cons c cs ih =>
    intro h
    have hc : isWsC c = false := h c (List.mem_cons_self c cs)
    rw [stripCorpSuffix, if_neg (by simp [suffixMatchHere_eq_false c cs hc])]
    rw [ih (fun d hd => h d (List.mem_cons_of_mem c hd))]

/-- With only uppercase letters and digits the fallback slug keeps one
character per input character, hence is non-empty. -/
theorem fallbackSlug_ne_nil (ns : List Char)
    (hal : ∀ c ∈ ns, (65 ≤ c.toNat ∧ c.toNat ≤ 90) ∨ (48 ≤ c.toNat ∧ c.toNat ≤ 57))
    (hne : ns ≠ []) : fallbackSlug ns ≠ [] := by
  have hnws : ∀ c ∈ ns, isWsC c = false := fun c hc => isWsC_eq_false_of_alnum c (hal c hc)
  have hlow : ∀ c ∈ jsLower ns, isWsC c = false := by
    intro c hc
    obtain ⟨a, ha, rfl⟩ := List.mem_map.1 hc
    exact isWsC_toLowerC a (hal a ha)
  have hkeep : ∀ c ∈ jsLower ns, isSlugChar c = true := by
    intro c hc
    obtain ⟨a, ha, rfl⟩ := List.mem_map.1 hc
    exact isSlugChar_toLowerC a (hal a ha)
  rw [fallbackSlug, stripCorpSuffix_of_no_ws ns hnws, hyphenateWs_of_no_ws _ hlow,
    stripNonSlug, List.filter_eq_self.mpr hkeep]
  simpa [jsLower] using hne

/-- With only uppercase letters and digits the catch-block slug is likewise
non-empty. -/
theorem catchSlug_ne_nil (ns : List Char)
    (hal : ∀ c ∈ ns, (65 ≤ c.toNat ∧ c.toNat ≤ 90) ∨ (48 ≤ c.toNat ∧ c.toNat ≤ 57))
    (hne : ns ≠ []) : catchSlug ns ≠ [] := by
  have hlow : ∀ c ∈ jsLower ns, isWsC c = false := by
    intro c hc
    obtain ⟨a, ha, rfl⟩ := List.mem_map.1 hc
    exact isWsC_toLowerC a (hal a ha)
  rw [catchSlug, hyphenateWs_of_no_ws _ hlow]
  simpa [jsLower] using hne

/-! ## Theorems: symbol resolution (claim C6) -/

/-- C6 counterexample: for a symbol with no alphanumeric characters and a
search that succeeds with no candidates, findCompanySlug returns the empty
string, not a non-empty identifier. -/
theorem findCompanySlug_empty_cex :
    findCompanySlug ("@@@".toList) (SearchOutcome.ok []) = [] := by
  decide

/-- C6 (amended): findCompanySlug never propagates a search failure, always
returning a slug (a failing search lands in the catch-block fallback); but
the returned slug can be empty.  When the trimmed uppercased symbol consists
of letters and digits, the slug is non-empty both on a failing search and on
a successful search with no candidates. -/
theorem findCompanySlug_policy :
    (∀ (sym msg : List Char),
      findCompanySlug sym (SearchOutcome.fail msg) = catchSlug (jsTrim (jsUpper sym))) ∧
    (∀ sym : List Char,
      (∀ c ∈ jsTrim (jsUpper sym),
        (65 ≤ c.toNat ∧ c.toNat ≤ 90) ∨ (48 ≤ c.toNat ∧ c.toNat ≤ 57)) →
      jsTrim (jsUpper sym) ≠ [] →
      findCompanySlug sym (SearchOutcome.ok []) ≠ [] ∧
      (∀ msg, findCompanySlug sym (SearchOutcome.fail msg) ≠ [])) := by
  constructor
  · intro sym msg
    rfl
  · intro sym hal hne
    constructor
    · show findCompanySlugTry (jsTrim (jsUpper sym)) [] ≠ []
      have hred : findCompanySlugTry (jsTrim (jsUpper sym)) [] =
          fallbackSlug (jsTrim (jsUpper sym)) := rfl
      rw [hred]
      exact fallbackSlug_ne_nil _ hal hne
    · intro msg
      show catchSlug (jsTrim (jsUpper sym)) ≠ []
      exact catchSlug_ne_nil _ hal hne

/-- Witness for findCompanySlug_policy on a concrete ticker symbol. -/
theorem findCompanySlug_policy_witness :
    findCompanySlug ("TCS".toList) (SearchOutcome.ok []) ≠ [] ∧
    findCompanySlug ("TCS".toList) (SearchOutcome.fail ("x".toList)) ≠ [] :=
  ⟨(findCompanySlug_policy.2 ("TCS".toList) (by decide) (by decide)).1,
   (findCompanySlug_policy.2 ("TCS".toList) (by decide) (by decide)).2 ("x".toList)⟩

/-! ## Plumbing lemmas for the detection loops -/

theorem mem_pushIf {c : Prop} [Decidable c] {e e' : TAEvent} (h : e' ∈ pushIf c e) : e' = e := by
  unfold pushIf at h
  split at h
  · simpa using h
  · simp at h

theorem mem_forEvents {k : Nat} {body : Nat → List TAEvent} {e : TAEvent}
    (h : e ∈ forEvents k body) : ∃ i, e ∈ body i := by
  unfold forEvents at h
  obtain ⟨l, hl, hel⟩ := List.mem_flatten.1 h
  obtain ⟨i, -, hi⟩ := List.mem_map.1 hl
  exact ⟨i, hi ▸ hel⟩

theorem macdCrossEvents_types (dates : List Nat) (prices : List ℚ) :
    ∀ e ∈ macdCrossEvents dates prices,
      e.type = "macd_bullish" ∨ e.type = "macd_bearish" := by
  intro e h
  simp only [macdCrossEvents] at h
  obtain ⟨i, hi⟩ := mem_forEvents h
  split at hi
  · exact absurd hi (List.not_mem_nil e)
  · rcases List.mem_append.1 hi with h2 | h2
    · exact Or.inl (by rw [mem_pushIf h2])
    · exact Or.inr (by rw [mem_pushIf h2])

theorem rsiEvents_types (dates : List Nat) (prices : List ℚ) :
    ∀ e ∈ rsiEvents dates prices,
      e.type = "rsi_overbought_exit" ∨ e.type = "rsi_oversold_exit" := by
  intro e h
  simp only [rsiEvents] at h
  obtain ⟨i, hi⟩ := mem_forEvents h
  rcases List.mem_append.1 hi with h2 | h2
  · exact Or.inl (by rw [mem_pushIf h2])
  · exact Or.inr (by rw [mem_pushIf h2])

theorem bbEvents_types (sqrtFn : ℚ → ℚ) (dates : List Nat) (prices : List ℚ) :
    ∀ e ∈ bbEvents sqrtFn dates prices,
      e.type = "bb_upper_breakout" ∨ e.type = "bb_lower_breakout" := by
  intro e h
  simp only [bbEvents] at h
  obtain ⟨i, hi⟩ := mem_forEvents h
  rcases List.mem_append.1 hi with h2 | h2
  · exact Or.inl (by rw [mem_pushIf h2])
  · exact Or.inr (by rw [mem_pushIf h2])

theorem sma20Events_types (dates : List Nat) (prices : List ℚ) :
    ∀ e ∈ sma20Events dates prices,
      e.type = "sma20_bullish" ∨ e.type = "sma20_bearish" := by
  intro e h
  simp only [sma20Events] at h
  obtain ⟨i, hi⟩ := mem_forEvents h
  rcases List.mem_append.1 hi with h2 | h2
  · exact Or.inl (by rw [mem_pushIf h2])
  · exact Or.inr (by rw [mem_pushIf h2])

/-! ## Concrete series facts for claim C1 -/

theorem prices0_eq : prices0 = List.replicate 200 (100 : ℚ) ++ [200] := by
  show priceData0.map Prod.snd = _
  rw [priceData0, List.map_append, List.map_map]
  have hc : (Prod.snd ∘ fun i : Nat => (i, (100 : ℚ))) = fun _ => (100 : ℚ) := rfl
  rw [hc, List.map_const', List.length_range]
  rfl

theorem prices0_len : prices0.length = 201 := by
  rw [prices0_eq]
  simp

theorem dates0_eq : dates0 = List.range 201 := by
  show priceData0.map Prod.fst = _
  rw [priceData0, List.map_append, List.map_map]
  have hc : (Prod.fst ∘ fun i : Nat => (i, (100 : ℚ))) = fun i => i := rfl
  rw [hc, List.map_id']
  rw [show (List.range 201) = List.range 200 ++ [200] from List.range_succ 200]
  rfl

theorem dates0_getD_200 : dates0.getD 200 0 = 200 := by
  rw [dates0_eq]
  simp [List.getD]

theorem smaList_getD (p : Nat) (v : List ℚ) (i : Nat) (h : i < v.length + 1 - p) :
    (smaList p v).getD i 0 = ((v.drop i).take p).sum / (p : ℚ) := by
  simp [smaList, List.getD, h]

theorem sma50_at_150 : (smaList 50 prices0).getD 150 0 = 100 := by
  rw [smaList_getD 50 prices0 150 (by rw [prices0_len]; omega)]
  rw [prices0_eq, List.drop_append_of_le_length (by simp), List.drop_replicate]
  rw [show (200 : Nat) - 150 = 50 from rfl, List.take_left' (by simp)]
  simp [List.sum_replicate]
  norm_num

theorem sma50_at_151 : (smaList 50 prices0).getD 151 0 = 102 := by
  rw [smaList_getD 50 prices0 151 (by rw [prices0_len]; omega)]
  rw [prices0_eq, List.drop_append_of_le_length (by simp), List.drop_replicate]
  rw [show (200 : Nat) - 151 = 49 from rfl]
  rw [List.take_of_length_le (by simp)]
  simp [List.sum_replicate]
  norm_num

theorem sma200_at_0 : (smaList 200 prices0).getD 0 0 = 100 := by
  rw [smaList_getD 200 prices0 0 (by rw [prices0_len]; omega)]
  rw [prices0_eq, List.drop_zero, List.take_left' (by simp)]
  simp [List.sum_replicate]
  norm_num

theorem sma200_at_1 : (smaList 200 prices0).getD 1 0 = 201 / 2 := by
  rw [smaList_getD 200 prices0 1 (by rw [prices0_len]; omega)]
  rw [prices0_eq, List.drop_append_of_le_length (by simp), List.drop_replicate]
  rw [show (200 : Nat) - 1 = 199 from rfl]
  rw [List.take_of_length_le (by simp)]
  simp [List.sum_replicate]
  norm_num

theorem aligned_golden_pd0 : alignedGoldenCrossDates dates0 prices0 = [200] := by
  simp only [alignedGoldenCrossDates, prices0_len]
  rw [show (201 : Nat) - 200 = 1 from rfl, show List.range' 200 1 = [200] from rfl]
  rw [List.filter_cons, List.filter_nil]
  rw [if_pos ?hr]
  case hr =>
    rw [show (200 : Nat) - 50 = 150 from rfl, show (200 : Nat) - 200 = 0 from rfl,
      show (200 : Nat) - 199 = 1 from rfl, show (200 : Nat) - 49 = 151 from rfl]
    rw [sma50_at_150, sma50_at_151, sma200_at_0, sma200_at_1]
    rw [decide_eq_true_iff]
    norm_num
  rw [List.map_cons, List.map_nil, dates0_getD_200]

theorem aligned_death_pd0 : alignedDeathCrossDates dates0 prices0 = [] := by
  simp only [alignedDeathCrossDates, prices0_len]
  rw [show (201 : Nat) - 200 = 1 from rfl, show List.range' 200 1 = [200] from rfl]
  rw [List.filter_cons, List.filter_nil]
  rw [if_neg ?hr]
  case hr =>
    rw [show (200 : Nat) - 50 = 150 from rfl, show (200 : Nat) - 200 = 0 from rfl,
      show (200 : Nat) - 199 = 1 from rfl, show (200 : Nat) - 49 = 151 from rfl]
    rw [sma50_at_150, sma50_at_151, sma200_at_0, sma200_at_1]
    rw [decide_eq_true_iff]
    norm_num
  rfl

theorem crossEvents_pd0_nil :
    crossEvents (priceData0.map Prod.fst) (priceData0.map Prod.snd) = [] := by
  decide

/-! ## Theorem: golden cross detection (claim C1) -/

/-- C1 (code bug): the 201-day series priceData0 has exactly one aligned
golden cross, at the date of index 200, and no aligned death cross; yet
detectTechnicalEvents emits no golden_cross event at all, whatever square
root the Bollinger computation uses, because the offset subtraction in the
cross loop is reversed (idx200 = i + 150 instead of i - 150), so the guard
skips every index of this series. -/
theorem detect_misses_aligned_golden_cross :
    alignedGoldenCrossDates dates0 prices0 = [200] ∧
    alignedDeathCrossDates dates0 prices0 = [] ∧
    ∀ sqrtFn : ℚ → ℚ,
      (detectTechnicalEvents sqrtFn priceData0).countP
        (fun e => e.type == "golden_cross") = 0 := by
  refine ⟨aligned_golden_pd0, aligned_death_pd0, ?_⟩
  intro sqrtFn
  have hlen : ¬(priceData0.length < 200) := by
    rw [priceData0]
    simp
  have hp : ∀ e : TAEvent, (e.type == "golden_cross") = true → isMajorE e = true := by
    intro e he
    have ht : e.type = "golden_cross" := by simpa using he
    simp [isMajorE, majorEventTypes, ht]
  have hz : ∀ l : List TAEvent,
      (∀ e ∈ l, e.type ≠ "golden_cross") →
      l.countP (fun e => e.type == "golden_cross") = 0 := by
    intro l hl
    rw [List.countP_eq_zero]
    intro a ha hpa
    exact hl a ha (by simpa using hpa)
  simp only [detectTechnicalEvents, if_neg hlen]
  rw [countP_finalizeEvents _ hp]
  rw [List.countP_append, List.countP_append, List.countP_append, List.countP_append]
  rw [crossEvents_pd0_nil, List.countP_nil]
  rw [hz _ (fun e he => by rcases macdCrossEvents_types _ _ e he with h | h <;> simp [h])]
  rw [hz _ (fun e he => by rcases rsiEvents_types _ _ e he with h | h <;> simp [h])]
  rw [hz _ (fun e he => by rcases bbEvents_types sqrtFn _ _ e he with h | h <;> simp [h])]
  rw [hz _ (fun e he => by rcases sma20Events_types _ _ e he with h | h <;> simp [h])]
